import Mathlib

/-!
Shallow embedding of `src/main.py` (gorcajo/gantty): the `Gantty` validation
and bar-layout logic, the `Resource` ledger and the `Task` entity.

Python strings are modelled as `List Char`; Python `int` as `Int`
(`n * '#'` for `n ≤ 0` yields the empty string, modelled by `Int.toNat`);
the `self.resources` dict (name → `Resource` object, whose only mutable
field is `_scheduled_bars`) as an association list `List (String × Int)`;
raised exceptions as an `Except Err` result.
-/

namespace Gantty

/-- The `Task` object of `main.py`: immutable fields set by `Task.__init__`
plus the mutable `bar` string (initially `''`). -/
structure Task where
  name : String
  id : Int
  duration : Int
  depends_on : Option Int
  done : Bool
  asignee : String
  bar : List Char
deriving DecidableEq

/-- `Task.__init__`: all declared fields stored, `_bar` initialised to `''`. -/
def mkTask (name : String) (id duration : Int) (depends_on : Option Int)
    (done : Bool) (asignee : String) : Task :=
  ⟨name, id, duration, depends_on, done, asignee, []⟩

/-- The `bar` setter (`task.bar = new_bar`). -/
def setBar (t : Task) (b : List Char) : Task :=
  { t with bar := b }

/-- The exceptions `main.py` can raise from `check_project` / `calculate_bars`,
distinguished by raise site; `message` below recovers the Python message. -/
inductive Err where
  | duplicateTaskId
  | unknownAsignee (asignee : String) (id : Int)
  | notImplementedError
  | keyError (key : String)
deriving DecidableEq

/-- The human-readable message each raise site attaches (f-strings in the
source, spelled out by concatenation here). -/
def Err.message : Err → String
  | .duplicateTaskId => "There are tasks with duplicater IDs"
  | .unknownAsignee a i =>
      "Asignee \"" ++ a ++ "\" in task with ID \"" ++ toString i
        ++ "\" not found in resources"
  | .notImplementedError => ""
  | .keyError k => k

/-- Dict key lookup on the resources mapping (`self.resources[key]`,
`key in self.resources`): the value is the resource's `_scheduled_bars`. -/
def lookupRes : List (String × Int) → String → Option Int
  | [], _ => none
  | (k, w) :: rest, key => if key = k then some w else lookupRes rest key

/-- Overwriting the `_scheduled_bars` of the resource stored under `key`
(the effect of `resource.schedule_bars` on the dict's state); a missing key
leaves the list unchanged. -/
def updateRes : List (String × Int) → String → Int → List (String × Int)
  | [], _, _ => []
  | (k, w) :: rest, key, v =>
      if key = k then (k, v) :: rest else (k, w) :: updateRes rest key v

/-- The loop `for resource in self.resources.values(): resource.unschedule_all_bars()`:
every resource's `_scheduled_bars` becomes 0. -/
def unschedule_all (rs : List (String × Int)) : List (String × Int) :=
  rs.map fun p => (p.1, 0)

/-- `{resource['name']: Resource(resource['name']) for resource in project['resources']}`:
each named resource starts with `_scheduled_bars = 0`. -/
def mkLedger (names : List String) : List (String × Int) :=
  names.map fun n => (n, 0)

/-- The body of the `for task in self.tasks` loop of `Gantty.calculate_bars`,
walked by structural recursion: state is the resources dict and the
`prev_task` variable; each task is returned with its (possibly) mutated bar. -/
def calcLoop : List (String × Int) → Option Task → List Task →
    Except Err (List (String × Int) × List Task)
  | rs, _, [] => .ok (rs, [])
  | rs, prev, task :: rest =>
    match lookupRes rs task.asignee with
    | none => .error (.keyError task.asignee)
    | some w =>
      match task.depends_on with
      | none =>
        let t := setBar task
          (List.replicate w.toNat ' ' ++ List.replicate task.duration.toNat '#')
        match calcLoop (updateRes rs task.asignee (w + task.duration)) (some t) rest with
        | .ok (rs', ts) => .ok (rs', t :: ts)
        | .error e => .error e
      | some d =>
        if d = -1 then
          let t := setBar task
            (match prev with
             | some p => List.replicate p.bar.length ' '
                 ++ List.replicate task.duration.toNat '#'
             | none => List.replicate task.duration.toNat '#')
          match calcLoop (updateRes rs task.asignee (w + task.duration)) (some t) rest with
          | .ok (rs', ts) => .ok (rs', t :: ts)
          | .error e => .error e
        else if d > 0 then .error .notImplementedError
        else
          match calcLoop rs (some task) rest with
          | .ok (rs', ts) => .ok (rs', task :: ts)
          | .error e => .error e

/-- `Gantty.calculate_bars`: reset every resource's `_scheduled_bars`, then
run the task loop with `prev_task = None`. -/
def calculate_bars (rs : List (String × Int)) (tasks : List Task) :
    Except Err (List (String × Int) × List Task) :=
  calcLoop (unschedule_all rs) none tasks

/-- The second half of `Gantty.check_project`: raise for the first task whose
`asignee` is not a key of the resources dict. -/
def checkAsignees (rs : List (String × Int)) : List Task → Except Err Unit
  | [] => .ok ()
  | t :: ts =>
      if (lookupRes rs t.asignee).isSome then checkAsignees rs ts
      else .error (.unknownAsignee t.asignee t.id)

/-- `Gantty.check_project`: duplicate-id check
(`len(task_ids) != len(list(set(task_ids)))`) first, then the asignee loop. -/
def check_project (rs : List (String × Int)) (tasks : List Task) : Except Err Unit :=
  let task_ids := tasks.map Task.id
  if task_ids.length ≠ task_ids.dedup.length then .error .duplicateTaskId
  else checkAsignees rs tasks

/-- `Gantty.__init__` after loading: build the resources dict and the task
list, run `check_project`, then `calculate_bars`. -/
def ganttyInit (names : List String) (tasks : List Task) :
    Except Err (List (String × Int) × List Task) :=
  match check_project (mkLedger names) tasks with
  | .error e => .error e
  | .ok _ => calculate_bars (mkLedger names) tasks

/-- Total bar-width committed to resource `a` by the tasks of `ts` assigned
to it (the sum of their durations). -/
def resourceLoad (a : String) (ts : List Task) : Int :=
  ((ts.filter fun t => t.asignee == a).map Task.duration).sum

/-- Length of `prev_task.bar`, 0 when `prev_task` is `None`. -/
def prevLen : Option Task → Nat
  | some p => p.bar.length
  | none => 0

end Gantty

namespace Gantty

@[simp] theorem setBar_name (t : Task) (b : List Char) : (setBar t b).name = t.name := rfl

@[simp] theorem setBar_id (t : Task) (b : List Char) : (setBar t b).id = t.id := rfl

@[simp] theorem setBar_duration (t : Task) (b : List Char) :
    (setBar t b).duration = t.duration := rfl

@[simp] theorem setBar_depends_on (t : Task) (b : List Char) :
    (setBar t b).depends_on = t.depends_on := rfl

@[simp] theorem setBar_done (t : Task) (b : List Char) : (setBar t b).done = t.done := rfl

@[simp] theorem setBar_asignee (t : Task) (b : List Char) :
    (setBar t b).asignee = t.asignee := rfl

@[simp] theorem setBar_bar (t : Task) (b : List Char) : (setBar t b).bar = b := rfl

@[simp] theorem setBar_setBar (t : Task) (b b' : List Char) :
    setBar (setBar t b) b' = setBar t b' := rfl

theorem lookupRes_updateRes (rs : List (String × Int)) (k : String) (v : Int)
    (a : String) :
    lookupRes (updateRes rs k v) a =
      if a = k then (lookupRes rs k).map (fun _ => v) else lookupRes rs a := by
  induction rs with
  | nil => simp [lookupRes, updateRes]
  | cons p rest ih =>
    obtain ⟨k', w⟩ := p
    by_cases hk : k = k'
    · subst hk
      by_cases ha : a = k <;> simp [lookupRes, updateRes, ha]
    · by_cases ha : a = k'
      · subst ha
        have hak : ¬ a = k := fun h => hk h.symm
        simp [lookupRes, updateRes, hk, hak]
      · simp [lookupRes, updateRes, hk, ha, ih]

theorem lookupRes_updateRes_isSome (rs : List (String × Int)) (k : String) (v : Int)
    (a : String) :
    (lookupRes (updateRes rs k v) a).isSome = (lookupRes rs a).isSome := by
  rw [lookupRes_updateRes]
  by_cases ha : a = k
  · subst ha; cases lookupRes rs a <;> simp
  · simp [ha]

theorem unschedule_all_updateRes (rs : List (String × Int)) (k : String) (v : Int) :
    unschedule_all (updateRes rs k v) = unschedule_all rs := by
  induction rs with
  | nil => rfl
  | cons p rest ih =>
    obtain ⟨k', w⟩ := p
    by_cases hk : k = k'
    · simp [updateRes, unschedule_all, hk]
    · simp only [updateRes, unschedule_all, hk, if_false, List.map_cons]
      simpa [unschedule_all] using ih

theorem lookupRes_unschedule_all (rs : List (String × Int)) (a : String) :
    lookupRes (unschedule_all rs) a = (lookupRes rs a).map (fun _ => 0) := by
  induction rs with
  | nil => rfl
  | cons p rest ih =>
    obtain ⟨k, w⟩ := p
    by_cases ha : a = k
    · simp [lookupRes, unschedule_all, ha]
    · simpa [lookupRes, unschedule_all, ha] using ih

theorem unschedule_all_zero (rs : List (String × Int)) :
    ∀ p ∈ unschedule_all rs, p.2 = 0 := by
  intro p hp
  simp only [unschedule_all, List.mem_map] at hp
  obtain ⟨q, -, rfl⟩ := hp
  rfl

theorem lookupRes_mkLedger (names : List String) (a : String) :
    lookupRes (mkLedger names) a = if a ∈ names then some 0 else none := by
  induction names with
  | nil => simp [mkLedger, lookupRes]
  | cons n rest ih =>
    by_cases ha : a = n
    · simp [mkLedger, lookupRes, ha]
    · simp only [mkLedger, lookupRes, ha, if_false, List.map_cons, List.mem_cons, false_or]
      simpa [mkLedger] using ih

theorem unschedule_all_mkLedger (names : List String) :
    unschedule_all (mkLedger names) = mkLedger names := by
  simp [unschedule_all, mkLedger]

theorem resourceLoad_cons (a : String) (t : Task) (ts : List Task) :
    resourceLoad a (t :: ts) =
      (if t.asignee = a then t.duration else 0) + resourceLoad a ts := by
  by_cases h : t.asignee = a <;> simp [resourceLoad, List.filter_cons, h]

end Gantty

namespace Gantty

theorem except_map_eq_ok {α β ε : Type} (f : α → β) (x : Except ε α) (b : β) :
    x.map f = .ok b ↔ ∃ a, x = .ok a ∧ f a = b := by
  cases x <;> simp [Except.map]

theorem calcLoop_nil (rs : List (String × Int)) (prev : Option Task) :
    calcLoop rs prev [] = .ok (rs, []) := rfl

theorem calcLoop_cons (rs : List (String × Int)) (prev : Option Task)
    (task : Task) (rest : List Task) :
    calcLoop rs prev (task :: rest) =
      match lookupRes rs task.asignee with
      | none => .error (.keyError task.asignee)
      | some w =>
        match task.depends_on with
        | none =>
          let t := setBar task
            (List.replicate w.toNat ' ' ++ List.replicate task.duration.toNat '#')
          match calcLoop (updateRes rs task.asignee (w + task.duration)) (some t) rest with
          | .ok (rs', ts) => .ok (rs', t :: ts)
          | .error e => .error e
        | some d =>
          if d = -1 then
            let t := setBar task
              (match prev with
               | some p => List.replicate p.bar.length ' '
                   ++ List.replicate task.duration.toNat '#'
               | none => List.replicate task.duration.toNat '#')
            match calcLoop (updateRes rs task.asignee (w + task.duration)) (some t) rest with
            | .ok (rs', ts) => .ok (rs', t :: ts)
            | .error e => .error e
          else if d > 0 then .error .notImplementedError
          else
            match calcLoop rs (some task) rest with
            | .ok (rs', ts) => .ok (rs', task :: ts)
            | .error e => .error e := rfl

theorem calcLoop_cons_keyerr (rs : List (String × Int)) (prev : Option Task)
    (task : Task) (rest : List Task)
    (hw : lookupRes rs task.asignee = none) :
    calcLoop rs prev (task :: rest) = .error (.keyError task.asignee) := by
  rw [calcLoop_cons, hw]

theorem calcLoop_cons_none (rs : List (String × Int)) (prev : Option Task)
    (task : Task) (rest : List Task) (w : Int)
    (hw : lookupRes rs task.asignee = some w) (hd : task.depends_on = none) :
    calcLoop rs prev (task :: rest) =
      (calcLoop (updateRes rs task.asignee (w + task.duration))
          (some (setBar task
            (List.replicate w.toNat ' ' ++ List.replicate task.duration.toNat '#'))) rest).map
        (fun pr => (pr.1,
          setBar task
            (List.replicate w.toNat ' ' ++ List.replicate task.duration.toNat '#') :: pr.2)) := by
  rw [calcLoop_cons, hw, hd]
  cases hrec : calcLoop (updateRes rs task.asignee (w + task.duration))
      (some (setBar task
        (List.replicate w.toNat ' ' ++ List.replicate task.duration.toNat '#'))) rest with
  | ok pr => obtain ⟨a, b⟩ := pr; simp [hrec, Except.map]
  | error e => simp [hrec, Except.map]

theorem calcLoop_cons_prevdep (rs : List (String × Int)) (prev : Option Task)
    (task : Task) (rest : List Task) (w : Int)
    (hw : lookupRes rs task.asignee = some w) (hd : task.depends_on = some (-1)) :
    calcLoop rs prev (task :: rest) =
      (calcLoop (updateRes rs task.asignee (w + task.duration))
          (some (setBar task
            (List.replicate (prevLen prev) ' '
              ++ List.replicate task.duration.toNat '#'))) rest).map
        (fun pr => (pr.1,
          setBar task
            (List.replicate (prevLen prev) ' '
              ++ List.replicate task.duration.toNat '#') :: pr.2)) := by
  have hbar : (match prev with
      | some p => List.replicate p.bar.length ' ' ++ List.replicate task.duration.toNat '#'
      | none => List.replicate task.duration.toNat '#') =
      List.replicate (prevLen prev) ' ' ++ List.replicate task.duration.toNat '#' := by
    cases prev <;> simp [prevLen]
  rw [calcLoop_cons, hw, hd]
  cases hrec : calcLoop (updateRes rs task.asignee (w + task.duration))
      (some (setBar task
        (List.replicate (prevLen prev) ' '
          ++ List.replicate task.duration.toNat '#'))) rest with
  | ok pr => obtain ⟨a, b⟩ := pr; simp [hbar, hrec, Except.map]
  | error e => simp [hbar, hrec, Except.map]

theorem calcLoop_cons_pos (rs : List (String × Int)) (prev : Option Task)
    (task : Task) (rest : List Task) (w d : Int)
    (hw : lookupRes rs task.asignee = some w) (hd : task.depends_on = some d)
    (h1 : d ≠ -1) (h2 : 0 < d) :
    calcLoop rs prev (task :: rest) = .error .notImplementedError := by
  rw [calcLoop_cons, hw, hd]
  simp [h1, h2]

theorem calcLoop_cons_skip (rs : List (String × Int)) (prev : Option Task)
    (task : Task) (rest : List Task) (w d : Int)
    (hw : lookupRes rs task.asignee = some w) (hd : task.depends_on = some d)
    (h1 : d ≠ -1) (h2 : ¬ 0 < d) :
    calcLoop rs prev (task :: rest) =
      (calcLoop rs (some task) rest).map (fun pr => (pr.1, task :: pr.2)) := by
  rw [calcLoop_cons, hw, hd]
  cases hrec : calcLoop rs (some task) rest with
  | ok pr => obtain ⟨a, b⟩ := pr; simp [h1, h2, hrec, Except.map]
  | error e => simp [h1, h2, hrec, Except.map]

end Gantty

namespace Gantty

theorem calcLoop_idem : ∀ (ts : List Task) (rs : List (String × Int)) (prev : Option Task)
    (rs₁ : List (String × Int)) (ts₁ : List Task),
    calcLoop rs prev ts = .ok (rs₁, ts₁) → calcLoop rs prev ts₁ = .ok (rs₁, ts₁) := by
  intro ts
  induction ts with
  | nil =>
    intro rs prev rs₁ ts₁ h
    rw [calcLoop_nil] at h
    obtain ⟨rfl, rfl⟩ : rs = rs₁ ∧ [] = ts₁ := by simpa using h
    exact calcLoop_nil rs prev
  | cons task rest ih =>
    intro rs prev rs₁ ts₁ h
    cases hw : lookupRes rs task.asignee with
    | none =>
      rw [calcLoop_cons_keyerr rs prev task rest hw] at h
      cases h
    | some w =>
      cases hd : task.depends_on with
      | none =>
        rw [calcLoop_cons_none rs prev task rest w hw hd] at h
        rw [except_map_eq_ok] at h
        obtain ⟨⟨a, b⟩, hrec, heq⟩ := h
        simp only [Prod.mk.injEq] at heq
        obtain ⟨rfl, rfl⟩ := heq
        have hw' : lookupRes rs (setBar task
            (List.replicate w.toNat ' ' ++ List.replicate task.duration.toNat '#')).asignee
            = some w := by simpa using hw
        have hd' : (setBar task
            (List.replicate w.toNat ' ' ++ List.replicate task.duration.toNat '#')).depends_on
            = none := by simpa using hd
        rw [calcLoop_cons_none rs prev _ b w hw' hd']
        simp only [setBar_asignee, setBar_duration, setBar_setBar]
        rw [ih _ _ a b hrec]
        simp [Except.map]
      | some d =>
        by_cases h1 : d = -1
        · subst h1
          rw [calcLoop_cons_prevdep rs prev task rest w hw hd] at h
          rw [except_map_eq_ok] at h
          obtain ⟨⟨a, b⟩, hrec, heq⟩ := h
          simp only [Prod.mk.injEq] at heq
          obtain ⟨rfl, rfl⟩ := heq
          have hw' : lookupRes rs (setBar task
              (List.replicate (prevLen prev) ' '
                ++ List.replicate task.duration.toNat '#')).asignee = some w := by simpa using hw
          have hd' : (setBar task
              (List.replicate (prevLen prev) ' '
                ++ List.replicate task.duration.toNat '#')).depends_on
              = some (-1) := by simpa using hd
          rw [calcLoop_cons_prevdep rs prev _ b w hw' hd']
          simp only [setBar_asignee, setBar_duration, setBar_setBar]
          rw [ih _ _ a b hrec]
          simp [Except.map]
        · by_cases h2 : 0 < d
          · rw [calcLoop_cons_pos rs prev task rest w d hw hd h1 h2] at h
            cases h
          · rw [calcLoop_cons_skip rs prev task rest w d hw hd h1 h2] at h
            rw [except_map_eq_ok] at h
            obtain ⟨⟨a, b⟩, hrec, heq⟩ := h
            simp only [Prod.mk.injEq] at heq
            obtain ⟨rfl, rfl⟩ := heq
            rw [calcLoop_cons_skip rs prev task b w d hw hd h1 h2]
            rw [ih _ _ a b hrec]
            simp [Except.map]

end Gantty

namespace Gantty

/-- Inversion of one successful iteration of the task loop: the task was laid
out with dependency `None`, laid out with the `-1` sentinel, or silently
skipped (`depends_on` of 0 or below -2). -/
theorem calcLoop_cons_ok_inv (rs : List (String × Int)) (prev : Option Task)
    (task : Task) (rest : List Task) (rs₁ : List (String × Int)) (ts₁ : List Task)
    (h : calcLoop rs prev (task :: rest) = .ok (rs₁, ts₁)) :
    ∃ w, lookupRes rs task.asignee = some w ∧
      ((∃ b, task.depends_on = none ∧
          calcLoop (updateRes rs task.asignee (w + task.duration))
            (some (setBar task
              (List.replicate w.toNat ' ' ++ List.replicate task.duration.toNat '#'))) rest
            = .ok (rs₁, b) ∧
          ts₁ = setBar task
              (List.replicate w.toNat ' ' ++ List.replicate task.duration.toNat '#') :: b)
       ∨ (∃ b, task.depends_on = some (-1) ∧
          calcLoop (updateRes rs task.asignee (w + task.duration))
            (some (setBar task
              (List.replicate (prevLen prev) ' '
                ++ List.replicate task.duration.toNat '#'))) rest
            = .ok (rs₁, b) ∧
          ts₁ = setBar task
              (List.replicate (prevLen prev) ' '
                ++ List.replicate task.duration.toNat '#') :: b)
       ∨ (∃ d b, task.depends_on = some d ∧ d ≠ -1 ∧ ¬ 0 < d ∧
          calcLoop rs (some task) rest = .ok (rs₁, b) ∧ ts₁ = task :: b)) := by
  cases hw : lookupRes rs task.asignee with
  | none =>
    rw [calcLoop_cons_keyerr rs prev task rest hw] at h
    cases h
  | some w =>
    refine ⟨w, rfl, ?_⟩
    cases hd : task.depends_on with
    | none =>
      rw [calcLoop_cons_none rs prev task rest w hw hd, except_map_eq_ok] at h
      obtain ⟨⟨a, b⟩, hrec, heq⟩ := h
      simp only [Prod.mk.injEq] at heq
      obtain ⟨rfl, rfl⟩ := heq
      exact Or.inl ⟨b, rfl, hrec, rfl⟩
    | some d =>
      by_cases h1 : d = -1
      · subst h1
        rw [calcLoop_cons_prevdep rs prev task rest w hw hd, except_map_eq_ok] at h
        obtain ⟨⟨a, b⟩, hrec, heq⟩ := h
        simp only [Prod.mk.injEq] at heq
        obtain ⟨rfl, rfl⟩ := heq
        exact Or.inr (Or.inl ⟨b, rfl, hrec, rfl⟩)
      · by_cases h2 : 0 < d
        · rw [calcLoop_cons_pos rs prev task rest w d hw hd h1 h2] at h
          cases h
        · rw [calcLoop_cons_skip rs prev task rest w d hw hd h1 h2, except_map_eq_ok] at h
          obtain ⟨⟨a, b⟩, hrec, heq⟩ := h
          simp only [Prod.mk.injEq] at heq
          obtain ⟨rfl, rfl⟩ := heq
          exact Or.inr (Or.inr ⟨d, b, rfl, h1, h2, hrec, rfl⟩)

/-- A successful pass never changes which resources exist (it only rewrites
their `_scheduled_bars`), so resetting the output ledger equals resetting the
input ledger. -/
theorem calcLoop_unschedule : ∀ (ts : List Task) (rs : List (String × Int))
    (prev : Option Task) (rs₁ : List (String × Int)) (ts₁ : List Task),
    calcLoop rs prev ts = .ok (rs₁, ts₁) → unschedule_all rs₁ = unschedule_all rs := by
  intro ts
  induction ts with
  | nil =>
    intro rs prev rs₁ ts₁ h
    rw [calcLoop_nil] at h
    obtain ⟨rfl, rfl⟩ : rs = rs₁ ∧ [] = ts₁ := by simpa using h
    rfl
  | cons task rest ih =>
    intro rs prev rs₁ ts₁ h
    obtain ⟨w, hw, hcase⟩ := calcLoop_cons_ok_inv rs prev task rest rs₁ ts₁ h
    rcases hcase with ⟨b, hd, hrec, rfl⟩ | ⟨b, hd, hrec, rfl⟩ | ⟨d, b, hd, h1, h2, hrec, rfl⟩
    · rw [ih _ _ _ _ hrec, unschedule_all_updateRes]
    · rw [ih _ _ _ _ hrec, unschedule_all_updateRes]
    · exact ih _ _ _ _ hrec

end Gantty

namespace Gantty

@[simp] theorem resourceLoad_nil (a : String) : resourceLoad a [] = 0 := rfl

theorem calcLoop_none_dep : ∀ (ts : List Task) (rs : List (String × Int)) (prev : Option Task),
    (∀ t ∈ ts, t.depends_on = none) →
    (∀ t ∈ ts, (lookupRes rs t.asignee).isSome) →
    ∃ rs₁ ts₁, calcLoop rs prev ts = .ok (rs₁, ts₁) ∧ ts₁.length = ts.length ∧
      ∀ i t, ts[i]? = some t →
        ts₁[i]? = some (setBar t
          (List.replicate ((lookupRes rs t.asignee).getD 0
              + resourceLoad t.asignee (ts.take i)).toNat ' '
            ++ List.replicate t.duration.toNat '#')) := by
  intro ts
  induction ts with
  | nil =>
    intro rs prev _ _
    exact ⟨rs, [], calcLoop_nil rs prev, rfl, by intro i t h; simp at h⟩
  | cons task rest ih =>
    intro rs prev hdep hres
    have hd : task.depends_on = none := hdep task (List.mem_cons_self _ _)
    obtain ⟨w, hw⟩ := Option.isSome_iff_exists.mp (hres task (List.mem_cons_self _ _))
    have hdep' : ∀ t ∈ rest, t.depends_on = none :=
      fun t ht => hdep t (List.mem_cons_of_mem _ ht)
    have hres' : ∀ t ∈ rest,
        (lookupRes (updateRes rs task.asignee (w + task.duration)) t.asignee).isSome := by
      intro t ht
      rw [lookupRes_updateRes_isSome]
      exact hres t (List.mem_cons_of_mem _ ht)
    obtain ⟨rs₁, ts₁, hcalc, hlen, hpt⟩ := ih
      (updateRes rs task.asignee (w + task.duration))
      (some (setBar task
        (List.replicate w.toNat ' ' ++ List.replicate task.duration.toNat '#')))
      hdep' hres'
    refine ⟨rs₁,
      setBar task
        (List.replicate w.toNat ' ' ++ List.replicate task.duration.toNat '#') :: ts₁,
      ?_, by simpa using hlen, ?_⟩
    · rw [calcLoop_cons_none rs prev task rest w hw hd, hcalc]
      simp [Except.map]
    · intro i t hit
      cases i with
      | zero =>
        simp only [List.getElem?_cons_zero, Option.some.injEq] at hit
        subst hit
        simp [hw, hd, resourceLoad_nil]
      | succ n =>
        simp only [List.getElem?_cons_succ] at hit ⊢
        have hoff : (lookupRes (updateRes rs task.asignee (w + task.duration)) t.asignee).getD 0
            + resourceLoad t.asignee (rest.take n)
            = (lookupRes rs t.asignee).getD 0
              + resourceLoad t.asignee ((task :: rest).take (n + 1)) := by
          rw [List.take_succ_cons, resourceLoad_cons, lookupRes_updateRes]
          by_cases ha : t.asignee = task.asignee
          · rw [if_pos ha, if_pos ha.symm, ha, hw]
            simp only [Option.map_some', Option.getD_some]
            ring
          · rw [if_neg ha, if_neg (fun h => ha h.symm)]
            ring
        rw [hpt n t hit, hoff]
end Gantty

namespace Gantty

theorem calcLoop_mixed : ∀ (ts : List Task) (rs : List (String × Int)) (prev : Option Task),
    (∀ t ∈ ts, t.depends_on = none ∨ t.depends_on = some (-1)) →
    (∀ t ∈ ts, (lookupRes rs t.asignee).isSome) →
    ∃ rs₁ : List (String × Int), ∃ ts₁ : List Task, ∃ off : Nat → Nat,
      calcLoop rs prev ts = .ok (rs₁, ts₁) ∧
      ts₁.length = ts.length ∧
      (∀ i t, ts[i]? = some t →
        ts₁[i]? = some (setBar t
          (List.replicate (off i) ' ' ++ List.replicate t.duration.toNat '#'))) ∧
      (∀ t, ts[0]? = some t → t.depends_on = some (-1) → off 0 = prevLen prev) ∧
      (∀ i t p, ts[i + 1]? = some t → t.depends_on = some (-1) → ts[i]? = some p →
        off (i + 1) = off i + p.duration.toNat) := by
  intro ts
  induction ts with
  | nil =>
    intro rs prev _ _
    refine ⟨rs, [], fun _ => 0, calcLoop_nil rs prev, rfl, ?_, ?_, ?_⟩
    · intro i t h; simp at h
    · intro t h; simp at h
    · intro i t p h; simp at h
  | cons task rest ih =>
    intro rs prev hdep hres
    obtain ⟨w, hw⟩ := Option.isSome_iff_exists.mp (hres task (List.mem_cons_self _ _))
    have hdep' : ∀ t ∈ rest, t.depends_on = none ∨ t.depends_on = some (-1) :=
      fun t ht => hdep t (List.mem_cons_of_mem _ ht)
    have hres' : ∀ t ∈ rest,
        (lookupRes (updateRes rs task.asignee (w + task.duration)) t.asignee).isSome := by
      intro t ht
      rw [lookupRes_updateRes_isSome]
      exact hres t (List.mem_cons_of_mem _ ht)
    rcases hdep task (List.mem_cons_self _ _) with hd | hd
    · -- dependency None: offset is the resource's current scheduled width
      obtain ⟨rs₁, ts₁, off', hcalc, hlen, hpt, hfst, hrec⟩ := ih
        (updateRes rs task.asignee (w + task.duration))
        (some (setBar task
          (List.replicate w.toNat ' ' ++ List.replicate task.duration.toNat '#')))
        hdep' hres'
      refine ⟨rs₁,
        setBar task
          (List.replicate w.toNat ' ' ++ List.replicate task.duration.toNat '#') :: ts₁,
        fun i => match i with | 0 => w.toNat | n + 1 => off' n,
        ?_, by simpa using hlen, ?_, ?_, ?_⟩
      · rw [calcLoop_cons_none rs prev task rest w hw hd, hcalc]
        simp [Except.map]
      · intro i t hit
        cases i with
        | zero =>
          simp only [List.getElem?_cons_zero, Option.some.injEq] at hit
          subst hit
          simp
        | succ n =>
          simp only [List.getElem?_cons_succ] at hit ⊢
          exact hpt n t hit
      · intro t hit hdt
        simp only [List.getElem?_cons_zero, Option.some.injEq] at hit
        subst hit
        rw [hd] at hdt
        cases hdt
      · intro i t p hit hdt hip
        cases i with
        | zero =>
          simp only [List.getElem?_cons_succ, List.getElem?_cons_zero,
            Option.some.injEq] at hit hip
          subst hip
          have := hfst t hit hdt
          simp only [prevLen, setBar_bar, List.length_append, List.length_replicate] at this
          simpa using this
        | succ n =>
          simp only [List.getElem?_cons_succ] at hit hip
          exact hrec n t p hit hdt hip
    · -- dependency -1: offset is the length of the previous task's bar
      obtain ⟨rs₁, ts₁, off', hcalc, hlen, hpt, hfst, hrec⟩ := ih
        (updateRes rs task.asignee (w + task.duration))
        (some (setBar task
          (List.replicate (prevLen prev) ' ' ++ List.replicate task.duration.toNat '#')))
        hdep' hres'
      refine ⟨rs₁,
        setBar task
          (List.replicate (prevLen prev) ' '
            ++ List.replicate task.duration.toNat '#') :: ts₁,
        fun i => match i with | 0 => prevLen prev | n + 1 => off' n,
        ?_, by simpa using hlen, ?_, ?_, ?_⟩
      · rw [calcLoop_cons_prevdep rs prev task rest w hw hd, hcalc]
        simp [Except.map]
      · intro i t hit
        cases i with
        | zero =>
          simp only [List.getElem?_cons_zero, Option.some.injEq] at hit
          subst hit
          simp
        | succ n =>
          simp only [List.getElem?_cons_succ] at hit ⊢
          exact hpt n t hit
      · intro t hit hdt
        simp
      · intro i t p hit hdt hip
        cases i with
        | zero =>
          simp only [List.getElem?_cons_succ, List.getElem?_cons_zero,
            Option.some.injEq] at hit hip
          subst hip
          have := hfst t hit hdt
          simp only [prevLen, setBar_bar, List.length_append, List.length_replicate] at this
          simpa using this
        | succ n =>
          simp only [List.getElem?_cons_succ] at hit hip
          exact hrec n t p hit hdt hip

end Gantty

namespace Gantty

theorem calcLoop_load : ∀ (ts : List Task) (rs : List (String × Int)) (prev : Option Task),
    (∀ t ∈ ts, t.depends_on = none ∨ t.depends_on = some (-1)) →
    (∀ t ∈ ts, (lookupRes rs t.asignee).isSome) →
    ∃ rs₁ ts₁, calcLoop rs prev ts = .ok (rs₁, ts₁) ∧
      ∀ a, lookupRes rs₁ a = (lookupRes rs a).map (fun v => v + resourceLoad a ts) := by
  intro ts
  induction ts with
  | nil =>
    intro rs prev _ _
    refine ⟨rs, [], calcLoop_nil rs prev, ?_⟩
    intro a
    cases lookupRes rs a <;> simp
  | cons task rest ih =>
    intro rs prev hdep hres
    obtain ⟨w, hw⟩ := Option.isSome_iff_exists.mp (hres task (List.mem_cons_self _ _))
    have hdep' : ∀ t ∈ rest, t.depends_on = none ∨ t.depends_on = some (-1) :=
      fun t ht => hdep t (List.mem_cons_of_mem _ ht)
    have hres' : ∀ t ∈ rest,
        (lookupRes (updateRes rs task.asignee (w + task.duration)) t.asignee).isSome := by
      intro t ht
      rw [lookupRes_updateRes_isSome]
      exact hres t (List.mem_cons_of_mem _ ht)
    have hcomb : ∀ rs₁ : List (String × Int),
        (∀ a, lookupRes rs₁ a =
          (lookupRes (updateRes rs task.asignee (w + task.duration)) a).map
            (fun v => v + resourceLoad a rest)) →
        ∀ a, lookupRes rs₁ a =
          (lookupRes rs a).map (fun v => v + resourceLoad a (task :: rest)) := by
      intro rs₁ hIH a
      rw [hIH a, lookupRes_updateRes, resourceLoad_cons]
      by_cases ha : a = task.asignee
      · subst ha
        rw [if_pos rfl, hw]
        simp [add_assoc]
      · rw [if_neg ha, if_neg (fun h => ha h.symm)]
        simp
    rcases hdep task (List.mem_cons_self _ _) with hd | hd
    · obtain ⟨rs₁, ts₁, hcalc, hled⟩ := ih _
        (some (setBar task
          (List.replicate w.toNat ' ' ++ List.replicate task.duration.toNat '#')))
        hdep' hres'
      refine ⟨rs₁,
        setBar task
          (List.replicate w.toNat ' ' ++ List.replicate task.duration.toNat '#') :: ts₁,
        ?_, hcomb rs₁ hled⟩
      rw [calcLoop_cons_none rs prev task rest w hw hd, hcalc]
      simp [Except.map]
    · obtain ⟨rs₁, ts₁, hcalc, hled⟩ := ih _
        (some (setBar task
          (List.replicate (prevLen prev) ' '
            ++ List.replicate task.duration.toNat '#')))
        hdep' hres'
      refine ⟨rs₁,
        setBar task
          (List.replicate (prevLen prev) ' '
            ++ List.replicate task.duration.toNat '#') :: ts₁,
        ?_, hcomb rs₁ hled⟩
      rw [calcLoop_cons_prevdep rs prev task rest w hw hd, hcalc]
      simp [Except.map]

theorem calcLoop_reach_pos : ∀ (pre : List Task) (rs : List (String × Int))
    (prev : Option Task) (t : Task) (rest : List Task) (d : Int),
    (∀ u ∈ pre, u.depends_on = none ∨ u.depends_on = some (-1)) →
    (∀ u ∈ pre, (lookupRes rs u.asignee).isSome) →
    (lookupRes rs t.asignee).isSome →
    t.depends_on = some d → 0 < d →
    calcLoop rs prev (pre ++ t :: rest) = .error .notImplementedError := by
  intro pre
  induction pre with
  | nil =>
    intro rs prev t rest d _ _ hres hd hpos
    obtain ⟨w, hw⟩ := Option.isSome_iff_exists.mp hres
    exact calcLoop_cons_pos rs prev t rest w d hw hd (by omega) hpos
  | cons u pre' ih =>
    intro rs prev t rest d hdep hres hrest hd hpos
    obtain ⟨w, hw⟩ := Option.isSome_iff_exists.mp (hres u (List.mem_cons_self _ _))
    have hdep' : ∀ x ∈ pre', x.depends_on = none ∨ x.depends_on = some (-1) :=
      fun x hx => hdep x (List.mem_cons_of_mem _ hx)
    have hres' : ∀ x ∈ pre',
        (lookupRes (updateRes rs u.asignee (w + u.duration)) x.asignee).isSome := by
      intro x hx
      rw [lookupRes_updateRes_isSome]
      exact hres x (List.mem_cons_of_mem _ hx)
    have hrest' : (lookupRes (updateRes rs u.asignee (w + u.duration)) t.asignee).isSome := by
      rw [lookupRes_updateRes_isSome]
      exact hrest
    rcases hdep u (List.mem_cons_self _ _) with hdu | hdu
    · rw [List.cons_append, calcLoop_cons_none rs prev u (pre' ++ t :: rest) w hw hdu,
        ih _ _ t rest d hdep' hres' hrest' hd hpos]
      rfl
    · rw [List.cons_append, calcLoop_cons_prevdep rs prev u (pre' ++ t :: rest) w hw hdu,
        ih _ _ t rest d hdep' hres' hrest' hd hpos]
      rfl

theorem length_dedup_eq_iff {α : Type} [DecidableEq α] (l : List α) :
    l.length = l.dedup.length ↔ l.Nodup := by
  constructor
  · intro h
    have hsub : l.dedup.Sublist l := List.dedup_sublist l
    have heq : l.dedup = l := hsub.eq_of_length h.symm
    rw [← heq]
    exact List.nodup_dedup l
  · intro h
    rw [List.dedup_eq_self.mpr h]

theorem checkAsignees_ok : ∀ (ts : List Task) (rs : List (String × Int)),
    (∀ t ∈ ts, (lookupRes rs t.asignee).isSome) → checkAsignees rs ts = .ok () := by
  intro ts
  induction ts with
  | nil => intro rs _; rfl
  | cons t rest ih =>
    intro rs h
    rw [checkAsignees, if_pos (h t (List.mem_cons_self _ _))]
    exact ih rs (fun u hu => h u (List.mem_cons_of_mem _ hu))

theorem checkAsignees_err_shape : ∀ (ts : List Task) (rs : List (String × Int)) (e : Err),
    checkAsignees rs ts = .error e → ∃ a i, e = .unknownAsignee a i := by
  intro ts
  induction ts with
  | nil => intro rs e h; cases h
  | cons t rest ih =>
    intro rs e h
    rw [checkAsignees] at h
    by_cases hs : (lookupRes rs t.asignee).isSome
    · rw [if_pos hs] at h
      exact ih rs e h
    · rw [if_neg hs] at h
      exact ⟨t.asignee, t.id, by cases h; rfl⟩

theorem checkAsignees_first : ∀ (pre : List Task) (rs : List (String × Int))
    (t : Task) (post : List Task),
    (∀ u ∈ pre, (lookupRes rs u.asignee).isSome) →
    lookupRes rs t.asignee = none →
    checkAsignees rs (pre ++ t :: post) = .error (.unknownAsignee t.asignee t.id) := by
  intro pre
  induction pre with
  | nil =>
    intro rs t post _ hmiss
    rw [List.nil_append, checkAsignees, if_neg (by rw [hmiss]; simp)]
  | cons u pre' ih =>
    intro rs t post hpre hmiss
    rw [List.cons_append, checkAsignees, if_pos (hpre u (List.mem_cons_self _ _))]
    exact ih rs t post (fun x hx => hpre x (List.mem_cons_of_mem _ hx)) hmiss

theorem check_project_dup_iff (rs : List (String × Int)) (tasks : List Task) :
    check_project rs tasks = .error .duplicateTaskId ↔ ¬ (tasks.map Task.id).Nodup := by
  by_cases h : (tasks.map Task.id).length = (tasks.map Task.id).dedup.length
  · have hnd : (tasks.map Task.id).Nodup := (length_dedup_eq_iff _).mp h
    have : check_project rs tasks = checkAsignees rs tasks := by
      rw [check_project, if_neg (by simpa using h)]
    rw [this]
    constructor
    · intro hc
      obtain ⟨a, i, hai⟩ := checkAsignees_err_shape tasks rs _ hc
      cases hai
    · intro hc
      exact absurd hnd hc
  · have : check_project rs tasks = .error .duplicateTaskId := by
      rw [check_project, if_pos (by simpa using h)]
    rw [this]
    simp only [true_iff]
    exact fun hnd => h ((length_dedup_eq_iff _).mpr hnd)

theorem check_project_ok (rs : List (String × Int)) (tasks : List Task)
    (hnd : (tasks.map Task.id).Nodup)
    (hres : ∀ t ∈ tasks, (lookupRes rs t.asignee).isSome) :
    check_project rs tasks = .ok () := by
  rw [check_project, if_neg (by simpa using (length_dedup_eq_iff (tasks.map Task.id)).mpr hnd)]
  exact checkAsignees_ok tasks rs hres

theorem check_project_unknown (rs : List (String × Int)) (pre : List Task)
    (t : Task) (post : List Task)
    (hnd : (((pre ++ t :: post).map Task.id)).Nodup)
    (hpre : ∀ u ∈ pre, (lookupRes rs u.asignee).isSome)
    (hmiss : lookupRes rs t.asignee = none) :
    check_project rs (pre ++ t :: post) = .error (.unknownAsignee t.asignee t.id) := by
  rw [check_project,
    if_neg (by simpa using (length_dedup_eq_iff ((pre ++ t :: post).map Task.id)).mpr hnd)]
  exact checkAsignees_first pre rs t post hpre hmiss

end Gantty

namespace Gantty

theorem lookupRes_unschedule_isSome (rs : List (String × Int)) (a : String) :
    (lookupRes (unschedule_all rs) a).isSome = (lookupRes rs a).isSome := by
  rw [lookupRes_unschedule_all]
  cases lookupRes rs a <;> simp

theorem lookupRes_unschedule_getD (rs : List (String × Int)) (a : String) :
    (lookupRes (unschedule_all rs) a).getD 0 = 0 := by
  rw [lookupRes_unschedule_all]
  cases lookupRes rs a <;> simp

/-- C1: with every dependency `None`, each task's bar is its resource's
scheduled width at processing time worth of blanks followed by `duration`
filled cells, so per resource the offsets are the prefix sums of the
durations (packed left, no gaps, no overlap), and each resource's final
scheduled width is the total load assigned to it. -/
theorem claim_C1 (rs : List (String × Int)) (tasks : List Task)
    (hdep : ∀ t ∈ tasks, t.depends_on = none)
    (hres : ∀ t ∈ tasks, (lookupRes rs t.asignee).isSome) :
    ∃ rs₁ : List (String × Int), ∃ ts₁ : List Task,
      calculate_bars rs tasks = .ok (rs₁, ts₁) ∧ ts₁.length = tasks.length ∧
      (∀ i t, tasks[i]? = some t →
        ts₁[i]? = some (setBar t
          (List.replicate (resourceLoad t.asignee (tasks.take i)).toNat ' '
            ++ List.replicate t.duration.toNat '#'))) ∧
      (∀ a, lookupRes rs₁ a =
        (lookupRes rs a).map fun _ => resourceLoad a tasks) := by
  have hres0 : ∀ t ∈ tasks, (lookupRes (unschedule_all rs) t.asignee).isSome := by
    intro t ht
    rw [lookupRes_unschedule_isSome]
    exact hres t ht
  obtain ⟨rs₁, ts₁, hcalc, hlen, hpt⟩ :=
    calcLoop_none_dep tasks (unschedule_all rs) none hdep hres0
  have hdep' : ∀ t ∈ tasks, t.depends_on = none ∨ t.depends_on = some (-1) :=
    fun t ht => Or.inl (hdep t ht)
  obtain ⟨rs₁', ts₁', hcalc', hled⟩ :=
    calcLoop_load tasks (unschedule_all rs) none hdep' hres0
  have hsame : rs₁' = rs₁ ∧ ts₁' = ts₁ := by
    rw [hcalc] at hcalc'
    simpa using hcalc'.symm
  obtain ⟨h1, h2⟩ := hsame
  refine ⟨rs₁, ts₁, hcalc, hlen, ?_, ?_⟩
  · intro i t hit
    rw [hpt i t hit, lookupRes_unschedule_getD, zero_add]
  · intro a
    rw [← h1, hled a, lookupRes_unschedule_all]
    cases lookupRes rs a <;> simp

theorem claim_C1_witness :
    ∃ rs₁ : List (String × Int), ∃ ts₁ : List Task,
      calculate_bars (mkLedger ["alice"])
          [mkTask "a" 1 3 none false "alice", mkTask "b" 2 2 none false "alice"]
        = .ok (rs₁, ts₁) ∧
      ts₁.length = [mkTask "a" 1 3 none false "alice",
          mkTask "b" 2 2 none false "alice"].length ∧
      (∀ i t, [mkTask "a" 1 3 none false "alice",
          mkTask "b" 2 2 none false "alice"][i]? = some t →
        ts₁[i]? = some (setBar t
          (List.replicate (resourceLoad t.asignee
              ([mkTask "a" 1 3 none false "alice",
                mkTask "b" 2 2 none false "alice"].take i)).toNat ' '
            ++ List.replicate t.duration.toNat '#'))) ∧
      (∀ a, lookupRes rs₁ a =
        (lookupRes (mkLedger ["alice"]) a).map
          fun _ => resourceLoad a [mkTask "a" 1 3 none false "alice",
            mkTask "b" 2 2 none false "alice"]) :=
  claim_C1 (mkLedger ["alice"])
    [mkTask "a" 1 3 none false "alice", mkTask "b" 2 2 none false "alice"]
    (by intro t ht; fin_cases ht <;> rfl)
    (by intro t ht; fin_cases ht <;> rfl)

/-- C2: when every dependency is `None` or the `-1` sentinel, every bar is
`off i` blanks then `duration` filled cells for some offset function, a task
with the `-1` sentinel first in the list gets offset 0, and any later task
with the `-1` sentinel gets the preceding task's offset plus that task's
duration, irrespective of either task's resource. -/
theorem claim_C2 (rs : List (String × Int)) (tasks : List Task)
    (hdep : ∀ t ∈ tasks, t.depends_on = none ∨ t.depends_on = some (-1))
    (hres : ∀ t ∈ tasks, (lookupRes rs t.asignee).isSome) :
    ∃ rs₁ : List (String × Int), ∃ ts₁ : List Task, ∃ off : Nat → Nat,
      calculate_bars rs tasks = .ok (rs₁, ts₁) ∧ ts₁.length = tasks.length ∧
      (∀ i t, tasks[i]? = some t →
        ts₁[i]? = some (setBar t
          (List.replicate (off i) ' ' ++ List.replicate t.duration.toNat '#'))) ∧
      (∀ t, tasks[0]? = some t → t.depends_on = some (-1) → off 0 = 0) ∧
      (∀ i t p, tasks[i + 1]? = some t → t.depends_on = some (-1) →
        tasks[i]? = some p → off (i + 1) = off i + p.duration.toNat) := by
  have hres0 : ∀ t ∈ tasks, (lookupRes (unschedule_all rs) t.asignee).isSome := by
    intro t ht
    rw [lookupRes_unschedule_isSome]
    exact hres t ht
  obtain ⟨rs₁, ts₁, off, hcalc, hlen, hpt, hfst, hrec⟩ :=
    calcLoop_mixed tasks (unschedule_all rs) none hdep hres0
  exact ⟨rs₁, ts₁, off, hcalc, hlen, hpt, hfst, hrec⟩

theorem claim_C2_witness :
    ∃ rs₁ : List (String × Int), ∃ ts₁ : List Task, ∃ off : Nat → Nat,
      calculate_bars (mkLedger ["alice", "bob"])
          [mkTask "a" 1 3 (some (-1)) false "alice", mkTask "b" 2 2 (some (-1)) false "bob"]
        = .ok (rs₁, ts₁) ∧
      ts₁.length = [mkTask "a" 1 3 (some (-1)) false "alice",
          mkTask "b" 2 2 (some (-1)) false "bob"].length ∧
      (∀ i t, [mkTask "a" 1 3 (some (-1)) false "alice",
          mkTask "b" 2 2 (some (-1)) false "bob"][i]? = some t →
        ts₁[i]? = some (setBar t
          (List.replicate (off i) ' ' ++ List.replicate t.duration.toNat '#'))) ∧
      (∀ t, [mkTask "a" 1 3 (some (-1)) false "alice",
          mkTask "b" 2 2 (some (-1)) false "bob"][0]? = some t →
        t.depends_on = some (-1) → off 0 = 0) ∧
      (∀ i t p, [mkTask "a" 1 3 (some (-1)) false "alice",
          mkTask "b" 2 2 (some (-1)) false "bob"][i + 1]? = some t →
        t.depends_on = some (-1) →
        [mkTask "a" 1 3 (some (-1)) false "alice",
          mkTask "b" 2 2 (some (-1)) false "bob"][i]? = some p →
        off (i + 1) = off i + p.duration.toNat) :=
  claim_C2 (mkLedger ["alice", "bob"])
    [mkTask "a" 1 3 (some (-1)) false "alice", mkTask "b" 2 2 (some (-1)) false "bob"]
    (by intro t ht; fin_cases ht <;> exact Or.inr rfl)
    (by intro t ht; fin_cases ht <;> rfl)

/-- C3: a task with the `-1` sentinel still adds its duration to its own
resource's scheduled width (final ledger = per-resource total load), and in
the concrete two-task mixed project task 2 is placed at offset 4 even though
bob had no prior occupancy, while bob's scheduled width still becomes 2. -/
theorem claim_C3 :
    (∀ (rs : List (String × Int)) (tasks : List Task),
      (∀ t ∈ tasks, t.depends_on = none ∨ t.depends_on = some (-1)) →
      (∀ t ∈ tasks, (lookupRes rs t.asignee).isSome) →
      ∃ rs₁ : List (String × Int), ∃ ts₁ : List Task,
        calculate_bars rs tasks = .ok (rs₁, ts₁) ∧
        ∀ a, lookupRes rs₁ a =
          (lookupRes rs a).map fun _ => resourceLoad a tasks) ∧
    calculate_bars (mkLedger ["alice", "bob"])
        [mkTask "t1" 1 4 none false "alice", mkTask "t2" 2 2 (some (-1)) false "bob"]
      = .ok ([("alice", 4), ("bob", 2)],
        [setBar (mkTask "t1" 1 4 none false "alice") (List.replicate 4 '#'),
         setBar (mkTask "t2" 2 2 (some (-1)) false "bob")
           (List.replicate 4 ' ' ++ List.replicate 2 '#')]) := by
  constructor
  · intro rs tasks hdep hres
    have hres0 : ∀ t ∈ tasks, (lookupRes (unschedule_all rs) t.asignee).isSome := by
      intro t ht
      rw [lookupRes_unschedule_isSome]
      exact hres t ht
    obtain ⟨rs₁, ts₁, hcalc, hled⟩ := calcLoop_load tasks (unschedule_all rs) none hdep hres0
    refine ⟨rs₁, ts₁, hcalc, ?_⟩
    intro a
    rw [hled a, lookupRes_unschedule_all]
    cases lookupRes rs a <;> simp
  · rfl

end Gantty

namespace Gantty

/-- C4 counterexample: a task whose `depends_on` is 0 — neither `None` nor
the `-1` sentinel — does not make the layout pass fail: `calculate_bars`
returns successfully, leaving the task's bar empty. -/
theorem claim_C4_counterexample :
    (mkTask "a" 1 3 (some 0) false "alice").depends_on = some 0 ∧
    calculate_bars (mkLedger ["alice"]) [mkTask "a" 1 3 (some 0) false "alice"]
      = .ok ([("alice", 0)], [mkTask "a" 1 3 (some 0) false "alice"]) :=
  ⟨rfl, rfl⟩

/-- C4 (amended): only a strictly positive `depends_on` makes the layout
pass fail, with `NotImplementedError`, when the pass reaches that task;
the failure is not caught by validation, which accepts such a task. -/
theorem claim_C4 (rs : List (String × Int)) (pre : List Task) (t : Task)
    (rest : List Task) (d : Int)
    (hdep : ∀ u ∈ pre, u.depends_on = none ∨ u.depends_on = some (-1))
    (hres : ∀ u ∈ pre, (lookupRes rs u.asignee).isSome)
    (ht : (lookupRes rs t.asignee).isSome)
    (hd : t.depends_on = some d) (hpos : 0 < d) :
    calculate_bars rs (pre ++ t :: rest) = .error .notImplementedError ∧
    ((((pre ++ t :: rest).map Task.id)).Nodup →
      (∀ u ∈ pre ++ t :: rest, (lookupRes rs u.asignee).isSome) →
      check_project rs (pre ++ t :: rest) = .ok ()) := by
  constructor
  · have hres0 : ∀ u ∈ pre, (lookupRes (unschedule_all rs) u.asignee).isSome := by
      intro u hu
      rw [lookupRes_unschedule_isSome]
      exact hres u hu
    have ht0 : (lookupRes (unschedule_all rs) t.asignee).isSome := by
      rw [lookupRes_unschedule_isSome]
      exact ht
    exact calcLoop_reach_pos pre (unschedule_all rs) none t rest d hdep hres0 ht0 hd hpos
  · intro hnd hall
    exact check_project_ok rs _ hnd hall

theorem claim_C4_witness :
    calculate_bars (mkLedger ["alice"])
        ([] ++ mkTask "a" 1 3 (some 2) false "alice" :: [])
      = .error .notImplementedError ∧
    (((([] ++ mkTask "a" 1 3 (some 2) false "alice" :: []).map Task.id)).Nodup →
      (∀ u ∈ [] ++ mkTask "a" 1 3 (some 2) false "alice" :: [],
        (lookupRes (mkLedger ["alice"]) u.asignee).isSome) →
      check_project (mkLedger ["alice"])
        ([] ++ mkTask "a" 1 3 (some 2) false "alice" :: []) = .ok ()) :=
  claim_C4 (mkLedger ["alice"]) [] (mkTask "a" 1 3 (some 2) false "alice") [] 2
    (by intro u hu; cases hu)
    (by intro u hu; cases hu)
    rfl rfl (by decide)

/-- C5 counterexample: a task with `depends_on` 0 is skipped by the pass,
which still completes; its bar stays empty, so the filled width is 0, not
the task's duration 3. -/
theorem claim_C5_counterexample :
    calculate_bars (mkLedger ["bob"]) [mkTask "s" 7 3 (some 0) false "bob"]
      = .ok ([("bob", 0)], [mkTask "s" 7 3 (some 0) false "bob"]) ∧
    (mkTask "s" 7 3 (some 0) false "bob").bar.count '#' = 0 ∧
    (mkTask "s" 7 3 (some 0) false "bob").duration = 3 :=
  ⟨rfl, rfl, rfl⟩

/-- C5 (amended): for every task whose dependency is `None` or the `-1`
sentinel (and nonnegative duration, per the data model), the laid-out bar is
some offset worth of blanks followed by exactly `duration` filled cells. -/
theorem claim_C5 (rs : List (String × Int)) (tasks : List Task)
    (hdep : ∀ t ∈ tasks, t.depends_on = none ∨ t.depends_on = some (-1))
    (hres : ∀ t ∈ tasks, (lookupRes rs t.asignee).isSome)
    (hdur : ∀ t ∈ tasks, 0 ≤ t.duration) :
    ∃ rs₁ : List (String × Int), ∃ ts₁ : List Task,
      calculate_bars rs tasks = .ok (rs₁, ts₁) ∧ ts₁.length = tasks.length ∧
      ∀ (i : Nat) (t : Task), tasks[i]? = some t →
        ∃ off : Nat, ∃ t' : Task, ts₁[i]? = some t' ∧
          t'.bar = List.replicate off ' ' ++ List.replicate t.duration.toNat '#' ∧
          ((t'.bar.count '#' : Int) = t.duration) := by
  have hres0 : ∀ t ∈ tasks, (lookupRes (unschedule_all rs) t.asignee).isSome := by
    intro t ht
    rw [lookupRes_unschedule_isSome]
    exact hres t ht
  obtain ⟨rs₁, ts₁, off, hcalc, hlen, hpt, -, -⟩ :=
    calcLoop_mixed tasks (unschedule_all rs) none hdep hres0
  refine ⟨rs₁, ts₁, hcalc, hlen, ?_⟩
  intro i t hit
  refine ⟨off i, setBar t
    (List.replicate (off i) ' ' ++ List.replicate t.duration.toNat '#'),
    hpt i t hit, rfl, ?_⟩
  have hmem : t ∈ tasks := List.getElem?_mem hit
  have hcnt : (setBar t
      (List.replicate (off i) ' '
        ++ List.replicate t.duration.toNat '#')).bar.count '#' = t.duration.toNat := by
    simp [List.count_append, List.count_replicate]
  rw [hcnt]
  exact Int.toNat_of_nonneg (hdur t hmem)

theorem claim_C5_witness :
    ∃ rs₁ : List (String × Int), ∃ ts₁ : List Task,
      calculate_bars (mkLedger ["alice"])
          [mkTask "a" 1 3 none false "alice", mkTask "b" 2 2 (some (-1)) false "alice"]
        = .ok (rs₁, ts₁) ∧
      ts₁.length = [mkTask "a" 1 3 none false "alice",
          mkTask "b" 2 2 (some (-1)) false "alice"].length ∧
      ∀ (i : Nat) (t : Task), [mkTask "a" 1 3 none false "alice",
          mkTask "b" 2 2 (some (-1)) false "alice"][i]? = some t →
        ∃ off : Nat, ∃ t' : Task, ts₁[i]? = some t' ∧
          t'.bar = List.replicate off ' ' ++ List.replicate t.duration.toNat '#' ∧
          ((t'.bar.count '#' : Int) = t.duration) :=
  claim_C5 (mkLedger ["alice"])
    [mkTask "a" 1 3 none false "alice", mkTask "b" 2 2 (some (-1)) false "alice"]
    (by intro t ht; fin_cases ht
        · exact Or.inl rfl
        · exact Or.inr rfl)
    (by intro t ht; fin_cases ht <;> rfl)
    (by intro t ht; fin_cases ht <;> decide)

end Gantty

namespace Gantty

/-- C6 counterexample: with two tasks sharing id 3, validation fails with
the duplicate-id condition, but its message is the fixed string
`There are tasks with duplicater IDs`, which does not contain the offending
id 3 (rendered `"3"`). -/
theorem claim_C6_counterexample :
    check_project (mkLedger ["alice"])
        [mkTask "x" 3 1 none false "alice", mkTask "y" 3 1 none false "alice"]
      = .error .duplicateTaskId ∧
    toString (3 : Int) = "3" ∧
    ¬ ("3".toList <:+: Err.duplicateTaskId.message.toList) := by
  refine ⟨rfl, rfl, ?_⟩
  decide

/-- C6 (amended): validation fails with the duplicate-id condition exactly
when two tasks share an id, but the duplicate-id message is a fixed generic
string naming no task id. -/
theorem claim_C6 :
    (∀ (rs : List (String × Int)) (tasks : List Task),
      check_project rs tasks = .error .duplicateTaskId ↔
        ¬ (tasks.map Task.id).Nodup) ∧
    Err.duplicateTaskId.message = "There are tasks with duplicater IDs" :=
  ⟨check_project_dup_iff, rfl⟩

/-- C7 counterexample: a project with an unknown assignee AND duplicate ids
fails with the duplicate-id condition, not the unknown-assignee one, so an
unknown assignee does not always produce `UnknownAssignee`. -/
theorem claim_C7_counterexample :
    lookupRes (mkLedger ["alice"]) (mkTask "g" 3 1 none false "ghost").asignee = none ∧
    check_project (mkLedger ["alice"])
        [mkTask "g" 3 1 none false "ghost", mkTask "h" 3 1 none false "alice"]
      = .error .duplicateTaskId ∧
    Err.duplicateTaskId ≠ Err.unknownAsignee "ghost" 3 := by
  refine ⟨rfl, rfl, ?_⟩
  decide

/-- C7 (amended): when task ids are unique, validation fails with
`UnknownAssignee` for the first task whose assignee is not a resource key,
and that error's message names both the task's id and the assignee; when
additionally every assignee is known, validation succeeds. -/
theorem claim_C7 :
    (∀ (rs : List (String × Int)) (pre : List Task) (t : Task) (post : List Task),
      (((pre ++ t :: post).map Task.id)).Nodup →
      (∀ u ∈ pre, (lookupRes rs u.asignee).isSome) →
      lookupRes rs t.asignee = none →
      check_project rs (pre ++ t :: post) = .error (.unknownAsignee t.asignee t.id)) ∧
    (∀ (rs : List (String × Int)) (tasks : List Task),
      (tasks.map Task.id).Nodup →
      (∀ u ∈ tasks, (lookupRes rs u.asignee).isSome) →
      check_project rs tasks = .ok ()) ∧
    (∀ (a : String) (i : Int),
      a.toList <:+: (Err.unknownAsignee a i).message.toList ∧
      (toString i).toList <:+: (Err.unknownAsignee a i).message.toList) := by
  refine ⟨check_project_unknown, check_project_ok, ?_⟩
  intro a i
  constructor
  · refine ⟨"Asignee \"".toList,
      ("\" in task with ID \"" ++ toString i ++ "\" not found in resources").toList, ?_⟩
    simp [Err.message, String.toList]
  · refine ⟨("Asignee \"" ++ a ++ "\" in task with ID \"").toList,
      "\" not found in resources".toList, ?_⟩
    simp [Err.message, String.toList]

end Gantty

namespace Gantty

/-- C8: the pass starts by resetting every resource's scheduled width to 0
(the loop over `unschedule_all_bars`, run before any task), and a second
invocation on the pass's own output produces exactly the same ledger and the
same bars. -/
theorem claim_C8 (rs rs₁ : List (String × Int)) (tasks ts₁ : List Task)
    (h : calculate_bars rs tasks = .ok (rs₁, ts₁)) :
    calculate_bars rs tasks = calcLoop (unschedule_all rs) none tasks ∧
    (∀ p ∈ unschedule_all rs, p.2 = 0) ∧
    calculate_bars rs₁ ts₁ = .ok (rs₁, ts₁) := by
  refine ⟨rfl, unschedule_all_zero rs, ?_⟩
  have hkeys : unschedule_all rs₁ = unschedule_all (unschedule_all rs) :=
    calcLoop_unschedule tasks (unschedule_all rs) none rs₁ ts₁ h
  have hid : unschedule_all (unschedule_all rs) = unschedule_all rs := by
    simp [unschedule_all, List.map_map, Function.comp]
  rw [calculate_bars, hkeys, hid]
  exact calcLoop_idem tasks (unschedule_all rs) none rs₁ ts₁ h

theorem claim_C8_witness :
    calculate_bars [("alice", 5)] [mkTask "a" 1 3 none false "alice"]
      = calcLoop (unschedule_all [("alice", 5)]) none [mkTask "a" 1 3 none false "alice"] ∧
    (∀ p ∈ unschedule_all [("alice", 5)], p.2 = 0) ∧
    calculate_bars [("alice", 3)]
        [setBar (mkTask "a" 1 3 none false "alice") (List.replicate 3 '#')]
      = .ok ([("alice", 3)],
        [setBar (mkTask "a" 1 3 none false "alice") (List.replicate 3 '#')]) :=
  claim_C8 [("alice", 5)] [("alice", 3)] [mkTask "a" 1 3 none false "alice"]
    [setBar (mkTask "a" 1 3 none false "alice") (List.replicate 3 '#')] rfl

/-- C9: when validation fails, `Gantty.__init__` propagates that failure and
the layout pass never runs: the freshly built ledger still has every
scheduled width at 0 and every freshly built task still has its initial
empty bar. -/
theorem claim_C9 (names : List String) (tasks : List Task) (e : Err)
    (hbar : ∀ t ∈ tasks, t.bar = [])
    (hfail : check_project (mkLedger names) tasks = .error e) :
    ganttyInit names tasks = .error e ∧
    (∀ p ∈ mkLedger names, p.2 = 0) ∧
    (∀ t ∈ tasks, t.bar = []) := by
  refine ⟨?_, ?_, hbar⟩
  · rw [ganttyInit, hfail]
  · intro p hp
    simp only [mkLedger, List.mem_map] at hp
    obtain ⟨n, -, rfl⟩ := hp
    rfl

theorem claim_C9_witness :
    ganttyInit ["alice"]
        [mkTask "x" 3 1 none false "alice", mkTask "y" 3 1 none false "alice"]
      = .error .duplicateTaskId ∧
    (∀ p ∈ mkLedger ["alice"], p.2 = 0) ∧
    (∀ t ∈ [mkTask "x" 3 1 none false "alice", mkTask "y" 3 1 none false "alice"],
      t.bar = []) :=
  claim_C9 ["alice"]
    [mkTask "x" 3 1 none false "alice", mkTask "y" 3 1 none false "alice"]
    .duplicateTaskId
    (by intro t ht; fin_cases ht <;> rfl)
    rfl

/-- C10: a task whose `depends_on` is 0 or below -2 raises nothing and is
skipped: it is passed through with its bar untouched and the ledger not
advanced, yet it still becomes `prev_task`, so an immediately following task
with the `-1` sentinel is laid out at offset 0 (the length of the skipped
task's empty bar). -/
theorem claim_C10 (rs : List (String × Int)) (prev : Option Task)
    (t t2 : Task) (rest rest2 : List Task) (d w w2 : Int)
    (hd : t.depends_on = some d) (hrange : d = 0 ∨ d < -1)
    (hw : lookupRes rs t.asignee = some w) :
    (calcLoop rs prev (t :: rest) =
      (calcLoop rs (some t) rest).map (fun pr => (pr.1, t :: pr.2))) ∧
    (t.bar = [] → t2.depends_on = some (-1) → lookupRes rs t2.asignee = some w2 →
      calcLoop rs prev (t :: t2 :: rest2) =
        (calcLoop (updateRes rs t2.asignee (w2 + t2.duration))
            (some (setBar t2 (List.replicate t2.duration.toNat '#'))) rest2).map
          (fun pr => (pr.1,
            t :: setBar t2 (List.replicate t2.duration.toNat '#') :: pr.2))) := by
  have h1 : d ≠ -1 := by omega
  have h2 : ¬ 0 < d := by omega
  constructor
  · exact calcLoop_cons_skip rs prev t rest w d hw hd h1 h2
  · intro hbar hd2 hw2
    rw [calcLoop_cons_skip rs prev t (t2 :: rest2) w d hw hd h1 h2,
      calcLoop_cons_prevdep rs (some t) t2 rest2 w2 hw2 hd2]
    have hplen : prevLen (some t) = 0 := by simp [prevLen, hbar]
    rw [hplen]
    simp only [List.replicate_zero, List.nil_append]
    cases hrec : calcLoop (updateRes rs t2.asignee (w2 + t2.duration))
        (some (setBar t2 (List.replicate t2.duration.toNat '#'))) rest2 with
    | ok pr => simp [hrec, Except.map]
    | error e => simp [hrec, Except.map]

theorem claim_C10_witness :
    (calcLoop [("alice", 0)] none
        [mkTask "s" 1 3 (some 0) false "alice"] =
      (calcLoop [("alice", 0)] (some (mkTask "s" 1 3 (some 0) false "alice")) []).map
        (fun pr => (pr.1, mkTask "s" 1 3 (some 0) false "alice" :: pr.2))) ∧
    ((mkTask "s" 1 3 (some 0) false "alice").bar = [] →
      (mkTask "n" 2 2 (some (-1)) false "alice").depends_on = some (-1) →
      lookupRes [("alice", 0)] (mkTask "n" 2 2 (some (-1)) false "alice").asignee
        = some 0 →
      calcLoop [("alice", 0)] none
          [mkTask "s" 1 3 (some 0) false "alice",
            mkTask "n" 2 2 (some (-1)) false "alice"] =
        (calcLoop (updateRes [("alice", 0)]
              (mkTask "n" 2 2 (some (-1)) false "alice").asignee
              (0 + (mkTask "n" 2 2 (some (-1)) false "alice").duration))
            (some (setBar (mkTask "n" 2 2 (some (-1)) false "alice")
              (List.replicate
                (mkTask "n" 2 2 (some (-1)) false "alice").duration.toNat '#'))) []).map
          (fun pr => (pr.1,
            mkTask "s" 1 3 (some 0) false "alice" ::
              setBar (mkTask "n" 2 2 (some (-1)) false "alice")
                (List.replicate
                  (mkTask "n" 2 2 (some (-1)) false "alice").duration.toNat '#')
                :: pr.2))) :=
  claim_C10 [("alice", 0)] none
    (mkTask "s" 1 3 (some 0) false "alice")
    (mkTask "n" 2 2 (some (-1)) false "alice")
    [] [] 0 0 0 rfl (Or.inl rfl) rfl

end Gantty
